import Mathlib

/-
Verification of the datumctl MCP resource-operation engine.

This file gives a shallow embedding of the core of the datumctl repository:
the kind resolver (internal/client/k8s_client.go, resolveKind), the resource
operation engine (Create / Get / Apply / Delete and buildObject), the manifest
validator (ValidateYAML), the MCP service layer (internal/mcp/service.go) and
the stdio protocol front end's tool handlers (internal/mcp/stdio.go).

Go map[string]any values decoded from JSON are embedded as an inductive value
type over association lists; Go maps never contain duplicate keys, which the
well-formedness predicate wfFields captures.  External collaborators (the
HTTP transport, the API server, client construction) are abstracted as
environment records of functions; everything that the repository itself
computes is translated directly from the source.
-/

set_option autoImplicit false

namespace Datumctl

/-! ### JSON-like values (Go `map[string]any` after JSON/YAML decoding) -/

/-- A dynamic value as produced by decoding JSON/YAML into `map[string]any`. -/
inductive Val : Type where
  | vstr : String → Val
  | vint : Int → Val
  | vbool : Bool → Val
  | vmap : List (String × Val) → Val

/-- First-occurrence lookup in an association list (Go map indexing). -/
def lookupVal : List (String × Val) → String → Option Val
  | [], _ => none
  | (k, v) :: rest, key => if k = key then some v else lookupVal rest key

/-- Go map assignment `m[k] = v`: update the binding in place, or append. -/
def setKey : List (String × Val) → String → Val → List (String × Val)
  | [], key, v => [(key, v)]
  | (k, w) :: rest, key, v =>
    if k = key then (key, v) :: rest else (k, w) :: setKey rest key v

/-- Key membership in an association list. -/
def hasKey : List (String × Val) → String → Bool
  | [], _ => false
  | (k, _) :: rest, key => k == key || hasKey rest key

mutual

/-- One iteration of the `mergeMaps` loop of internal/mcp/stdio.go for key `k`
with new value `v`: if both the existing and the new value are maps they are
merged recursively, otherwise the new value replaces the old. -/
def mergeKey (a : List (String × Val)) (k : String) : Val → List (String × Val)
  | Val.vmap bm =>
    match lookupVal a k with
    | some (Val.vmap am) => setKey a k (Val.vmap (mergeMaps am bm))
    | _ => setKey a k (Val.vmap bm)
  | v => setKey a k v

/-- `mergeMaps` of internal/mcp/stdio.go: recursively merge map `b` into map
`a` (the Go code mutates and returns `a`; the embedding is functional). -/
def mergeMaps (a : List (String × Val)) : List (String × Val) → List (String × Val)
  | [] => a
  | (k, v) :: rest => mergeMaps (mergeKey a k v) rest

end

mutual

/-- All nested maps inside a value have duplicate-free keys (always true of
values decoded from Go maps). -/
def wfVal : Val → Bool
  | Val.vstr _ => true
  | Val.vint _ => true
  | Val.vbool _ => true
  | Val.vmap m => wfFields m

/-- Duplicate-free keys at this level and well-formed nested values. -/
def wfFields : List (String × Val) → Bool
  | [] => true
  | (k, v) :: rest => !hasKey rest k && wfVal v && wfFields rest

end

/-! ### Small string helpers mirrored from the Go source -/

/-- Whether `sub` occurs at the start of `s` (character lists). -/
def listStarts : List Char → List Char → Bool
  | _, [] => true
  | [], _ :: _ => false
  | c :: cs, d :: ds => c == d && listStarts cs ds

/-- Auxiliary scan for substring containment. -/
def containsAux : List Char → List Char → Bool
  | [], sub => sub.isEmpty
  | c :: cs, sub => listStarts (c :: cs) sub || containsAux cs sub

/-- Go `strings.Contains s sub`. -/
def containsStr (s sub : String) : Bool := containsAux s.data sub.data

/-- Go helper `firstNonEmpty` (internal/mcp/service.go and k8s_client.go). -/
def firstNonEmpty (a b : String) : String := if a ≠ "" then a else b

/-- Go generic helper `ternary` (k8s_client.go / stdio.go). -/
def ternary {T : Type} (cond : Bool) (a b : T) : T := if cond then a else b

/-! ### Discovery model and the kind resolver (k8s_client.go, resolveKind) -/

/-- One discovered resource: `metav1.APIResource` restricted to the fields
`resolveKind` reads (Name, Kind, Namespaced). -/
structure APIResource where
  name : String
  kind : String
  namespaced : Bool
deriving DecidableEq

/-- One entry of `restmapper.GetAPIGroupResources`: a group name together with
its versioned resource lists.  (Go stores the versions in a map; the embedding
uses a list, and every theorem below is insensitive to the order.) -/
structure APIGroupResources where
  groupName : String
  versionedResources : List (String × List APIResource)
deriving DecidableEq

/-- `ResolvedKind` of k8s_client.go, flattened: the GVR resource (plural
name), the GVK kind, and the shared group/version. -/
structure ResolvedKind where
  group : String
  version : String
  resource : String
  kind : String
  namespaced : Bool
deriving DecidableEq

/-- `schema.GroupVersion.String()`: `v` for the core (empty) group, else `g/v`. -/
def gvString (g v : String) : String := if g = "" then v else g ++ "/" ++ v

/-- The candidate scan of `resolveKind`: keep every discovery entry whose Kind
equals the request exactly and whose resource name has no `/`, filtered by the
optional apiVersion hint exactly as in the source. -/
def collectCandidates (gr : List APIGroupResources) (kind apiVersion : String) :
    List ResolvedKind :=
  gr.flatMap fun grs =>
    grs.versionedResources.flatMap fun vr =>
      vr.2.filterMap fun r =>
        if r.kind = kind ∧ containsStr r.name "/" = false
            ∧ (apiVersion = "" ∨ gvString grs.groupName vr.1 = apiVersion
               ∨ (grs.groupName = "" ∧ vr.1 = apiVersion)) then
          some { group := grs.groupName, version := vr.1, resource := r.name,
                 kind := kind, namespaced := r.namespaced }
        else none

/-- Message of `apierrs.NewNotFound(GroupResource{Resource: strings.ToLower(kind)}, kind)`. -/
def notFoundMsg (kind : String) : String :=
  kind.toLower ++ " \"" ++ kind ++ "\" not found"

/-- The ambiguity error of `resolveKind` (it names the kind only, not the
candidate apiVersions). -/
def ambiguousMsg (kind : String) : String :=
  "kind \"" ++ kind ++ "\" is available in multiple apiVersions; please specify apiVersion"

/-- `K8sClient.resolveKind` (k8s_client.go): collect candidates, fail NotFound
when none, fail with the ambiguity error when several distinct group/versions
remain and no hint was given, else return the first candidate. -/
def resolveKind (gr : List APIGroupResources) (kind apiVersion : String) :
    Except String ResolvedKind :=
  let candidates := collectCandidates gr kind apiVersion
  match candidates with
  | [] => Except.error (notFoundMsg kind)
  | c :: _ =>
    let uniq := (candidates.map fun cd => cd.group ++ "/" ++ cd.version).dedup
    if apiVersion = "" ∧ 1 < uniq.length then Except.error (ambiguousMsg kind)
    else Except.ok c

/-! ### Object construction (buildObject) and object accessors -/

/-- A `map[string]string` rendered into the dynamic value world. -/
def strMapToVal (m : List (String × String)) : Val :=
  Val.vmap (m.map fun p => (p.1, Val.vstr p.2))

/-- Options of `buildObject` (k8s_client.go / stdio.go).  The Go field
`Namespace` is embedded as `nspace` because `namespace` is a Lean keyword. -/
structure BuildObjectOpts where
  apiVersion : String := ""
  kind : String := ""
  name : String := ""
  generateName : String := ""
  nspace : String := ""
  labels : List (String × String) := []
  annotations : List (String × String) := []
  spec : Option (List (String × Val)) := none

/-- `buildObject` (k8s_client.go:434 and the identical copy in stdio.go):
assemble an unstructured object; `name` wins over `generateName`, namespace
and label/annotation maps are set only when non-empty, a nil spec leaves the
empty spec map in place. -/
def buildObject (opts : BuildObjectOpts) : List (String × Val) :=
  let md0 : List (String × Val) := [("labels", Val.vmap []), ("annotations", Val.vmap [])]
  let md1 := if opts.name ≠ "" then setKey md0 "name" (Val.vstr opts.name) else md0
  let md2 := if opts.generateName ≠ "" ∧ opts.name = "" then
      setKey md1 "generateName" (Val.vstr opts.generateName) else md1
  let md3 := if opts.nspace ≠ "" then setKey md2 "namespace" (Val.vstr opts.nspace) else md2
  let md4 := if opts.labels ≠ [] then setKey md3 "labels" (strMapToVal opts.labels) else md3
  let md5 := if opts.annotations ≠ [] then
      setKey md4 "annotations" (strMapToVal opts.annotations) else md4
  let specVal := match opts.spec with
    | some s => Val.vmap s
    | none => Val.vmap []
  [("apiVersion", Val.vstr opts.apiVersion), ("kind", Val.vstr opts.kind),
   ("metadata", Val.vmap md5), ("spec", specVal)]

/-- `u.GetNamespace()`: the metadata.namespace string of an object ("" when absent). -/
def objGetNamespace (obj : List (String × Val)) : String :=
  match lookupVal obj "metadata" with
  | some (Val.vmap md) =>
    match lookupVal md "namespace" with
    | some (Val.vstr s) => s
    | _ => ""
  | _ => ""

/-- `u.GetAPIVersion()`. -/
def objGetAPIVersion (obj : List (String × Val)) : String :=
  match lookupVal obj "apiVersion" with
  | some (Val.vstr s) => s
  | _ => ""

/-- `unstructured.NestedMap(obj, field)`: the top-level field as a map, when
it is one. -/
def objGetMap (obj : List (String × Val)) (field : String) : Option (List (String × Val)) :=
  match lookupVal obj field with
  | some (Val.vmap m) => some m
  | _ => none

/-- `unstructured.SetNestedMap(obj, m, field)` at the top level. -/
def objSetMap (obj : List (String × Val)) (field : String) (m : List (String × Val)) :
    List (String × Val) :=
  setKey obj field (Val.vmap m)

/-- A metadata field under `metadata` (used to inspect name / generateName). -/
def objGetMeta (obj : List (String × Val)) (field : String) : Option Val :=
  match lookupVal obj "metadata" with
  | some (Val.vmap md) => lookupVal md field
  | _ => none

/-- `u.GetLabels()` / `u.GetAnnotations()`: metadata string map; nil (here
`[]`) when absent or when some value is not a string, following
`NestedStringMap`. -/
def objGetStrMap (obj : List (String × Val)) (field : String) : List (String × String) :=
  match objGetMeta obj field with
  | some (Val.vmap m) =>
    if m.all fun p => match p.2 with | Val.vstr _ => true | _ => false then
      m.filterMap fun p => match p.2 with | Val.vstr s => some (p.1, s) | _ => none
    else []
  | _ => []

/-- `u.SetLabels` / `u.SetAnnotations`: write the string map under metadata. -/
def objSetStrMap (obj : List (String × Val)) (field : String) (m : List (String × String)) :
    List (String × Val) :=
  let md := match lookupVal obj "metadata" with
    | some (Val.vmap md) => md
    | _ => []
  setKey obj "metadata" (Val.vmap (setKey md field (strMapToVal m)))

/-- Go string-map assignment `m[k] = v` on a `map[string]string`. -/
def setStrKey : List (String × String) → String → String → List (String × String)
  | [], k, v => [(k, v)]
  | (k0, v0) :: rest, k, v =>
    if k0 = k then (k, v) :: rest else (k0, v0) :: setStrKey rest k v

/-- The label/annotation merge loop of the stdio update handler:
`for k, v := range supplied { current[k] = v }` (keys replace individually). -/
def strMapMerge (cur add : List (String × String)) : List (String × String) :=
  add.foldl (fun acc p => setStrKey acc p.1 p.2) cur

/-! ### The resource operation engine (k8s_client.go)

The engine functions below compute the request each operation issues to the
API server; the server itself is an external collaborator.  `K8sClient`'s
transport fields are abstracted into an opaque transport identifier plus the
default `Namespace` field. -/

/-- `K8sClient`, reduced to the observable session state: an opaque transport
identity (cfg/disco/dyn/mapper) and the default namespace. -/
structure K8sClientModel where
  transport : Nat
  nspace : String
deriving DecidableEq

/-- `client.CreateOptions`. -/
structure CreateOptions where
  kind : String := ""
  apiVersion : String := ""
  name : String := ""
  generateName : String := ""
  nspace : String := ""
  labels : List (String × String) := []
  annotations : List (String × String) := []
  spec : Option (List (String × Val)) := none
  dryRun : Bool := true

/-- `client.GetOptions`. -/
structure GetOptions where
  kind : String := ""
  apiVersion : String := ""
  name : String := ""
  nspace : String := ""

/-- `client.ApplyOptions`. -/
structure ApplyOptions where
  kind : String := ""
  apiVersion : String := ""
  name : String := ""
  nspace : String := ""
  labels : List (String × String) := []
  annotations : List (String × String) := []
  spec : Option (List (String × Val)) := none
  dryRun : Bool := true
  force : Bool := false

/-- `client.DeleteOptions`. -/
structure DeleteOptions where
  kind : String := ""
  apiVersion : String := ""
  name : String := ""
  nspace : String := ""
  dryRun : Bool := true

/-- The create call `ri.Create(ctx, obj, CreateOptions{DryRun: ...})` as sent
to the API server. -/
structure K8sCreateReq where
  group : String
  version : String
  resource : String
  nspace : Option String
  obj : List (String × Val)
  dryRun : List String

/-- The server-side-apply call `ri.Patch(ctx, name, ApplyPatchType, body, ...)`
as sent to the API server. -/
structure K8sPatchReq where
  group : String
  version : String
  resource : String
  nspace : Option String
  name : String
  body : List (String × Val)
  fieldManager : String
  force : Bool
  dryRun : List String

/-- The delete call as sent to the API server. -/
structure K8sDeleteReq where
  group : String
  version : String
  resource : String
  nspace : Option String
  name : String
  dryRun : List String

/-- `K8sClient.Create` (k8s_client.go:211): resolve the kind, build the object
(namespace defaulting to the client's namespace), and issue a create carrying
`DryRun: ternary(opt.DryRun, ["All"], nil)`. -/
def K8sCreate (disco : List APIGroupResources) (defaultNs : String) (opt : CreateOptions) :
    Except String K8sCreateReq :=
  match resolveKind disco opt.kind opt.apiVersion with
  | Except.error e => Except.error e
  | Except.ok rk =>
    let obj := buildObject
      { apiVersion := gvString rk.group rk.version, kind := rk.kind,
        name := opt.name, generateName := opt.generateName,
        nspace := firstNonEmpty opt.nspace defaultNs,
        labels := opt.labels, annotations := opt.annotations, spec := opt.spec }
    Except.ok
      { group := rk.group, version := rk.version, resource := rk.resource,
        nspace := if rk.namespaced then some (objGetNamespace obj) else none,
        obj := obj, dryRun := ternary opt.dryRun ["All"] [] }

/-- The external API server, as seen by `K8sClient.Get`: the discovery data
plus a fetch function for single objects. -/
structure ServerEnv where
  disco : List APIGroupResources
  fetch : ResolvedKind → Option String → String → Except String (List (String × Val))

/-- `K8sClient.Get` (k8s_client.go:241): resolve the kind and fetch the named
object, defaulting the namespace for namespaced kinds. -/
def K8sGet (env : ServerEnv) (defaultNs : String) (opt : GetOptions) :
    Except String (List (String × Val)) :=
  match resolveKind env.disco opt.kind opt.apiVersion with
  | Except.error e => Except.error e
  | Except.ok rk =>
    env.fetch rk (if rk.namespaced then some (firstNonEmpty opt.nspace defaultNs) else none)
      opt.name

/-- `K8sClient.Apply` (k8s_client.go:258): resolve the kind, build the object
from the supplied fields only (no fetch of the current object), and issue a
server-side-apply patch with field manager `datumctl-mcp`. -/
def K8sApply (disco : List APIGroupResources) (defaultNs : String) (opt : ApplyOptions) :
    Except String K8sPatchReq :=
  match resolveKind disco opt.kind opt.apiVersion with
  | Except.error e => Except.error e
  | Except.ok rk =>
    let obj := buildObject
      { apiVersion := gvString rk.group rk.version, kind := rk.kind,
        name := opt.name, nspace := firstNonEmpty opt.nspace defaultNs,
        labels := opt.labels, annotations := opt.annotations, spec := opt.spec }
    Except.ok
      { group := rk.group, version := rk.version, resource := rk.resource,
        nspace := if rk.namespaced then some (objGetNamespace obj) else none,
        name := opt.name, body := obj, fieldManager := "datumctl-mcp",
        force := opt.force, dryRun := ternary opt.dryRun ["All"] [] }

/-- `K8sClient.Delete` (k8s_client.go:289). -/
def K8sDelete (disco : List APIGroupResources) (defaultNs : String) (opt : DeleteOptions) :
    Except String K8sDeleteReq :=
  match resolveKind disco opt.kind opt.apiVersion with
  | Except.error e => Except.error e
  | Except.ok rk =>
    Except.ok
      { group := rk.group, version := rk.version, resource := rk.resource,
        nspace := if rk.namespaced then some (firstNonEmpty opt.nspace defaultNs) else none,
        name := opt.name, dryRun := ternary opt.dryRun ["All"] [] }

/-! ### The persistence contract of server-side dry-run

A request that carries the `All` dry-run flag performs full validation and
admission on the server but is never persisted; only a request whose dry-run
list is empty can mutate stored state.  This is the Kubernetes API contract
the engine relies on (an external collaborator, modelled minimally). -/

/-- Server store: object name to object. -/
structure ServerState where
  objs : List (String × List (String × Val))

/-- Server handling of a create request: persists only without the dry-run flag. -/
def serverApplyCreate (st : ServerState) (req : K8sCreateReq) : ServerState :=
  if req.dryRun = [] then { objs := st.objs ++ [(objGetNamespace req.obj, req.obj)] } else st

/-- Server handling of an apply patch: persists only without the dry-run flag. -/
def serverApplyPatch (st : ServerState) (req : K8sPatchReq) : ServerState :=
  if req.dryRun = [] then
    { objs := st.objs.map fun p => if p.1 = req.name then (p.1, req.body) else p }
  else st

/-- Server handling of a delete: persists only without the dry-run flag. -/
def serverApplyDelete (st : ServerState) (req : K8sDeleteReq) : ServerState :=
  if req.dryRun = [] then { objs := st.objs.filter fun p => p.1 ≠ req.name } else st

/-! ### JSON-RPC protocol pieces (internal/mcp/stdio.go) -/

def JSONRPCMethodNotFound : Int := -32601
def JSONRPCInvalidParams : Int := -32602
def JSONRPCInternalError : Int := -32603

/-- A terminal reply of a tool handler: either `replyToolOK` with a JSON
payload, or `replyErr` with a code and a message. -/
inductive Reply where
  | ok : List (String × Val) → Reply
  | err : Int → String → Reply

/-! ### Argument-parsing helpers of stdio.go -/

/-- `getString` (stdio.go:647): the value under `k` when it is a string. -/
def getString (m : List (String × Val)) (k : String) : String × Bool :=
  match lookupVal m k with
  | some (Val.vstr s) => (s, true)
  | _ => ("", false)

/-- `getStringDefault` (stdio.go:654). -/
def getStringDefault (m : List (String × Val)) (k : String) : String :=
  (getString m k).1

/-- `getBoolDefault` (stdio.go:658): the value under `k` when it is a bool,
otherwise the default. -/
def getBoolDefault (m : List (String × Val)) (k : String) (dflt : Bool) : Bool :=
  match lookupVal m k with
  | some (Val.vbool b) => b
  | _ => dflt

/-- `getMapAny` (stdio.go:667): the value under `k` when it is a map
(`none` embeds Go's nil map). -/
def getMapAny (m : List (String × Val)) (k : String) : Option (List (String × Val)) :=
  match lookupVal m k with
  | some (Val.vmap v) => some v
  | _ => none

/-- Rendering of a non-string value by `fmt.Sprint` in `getMapString`
(composite rendering abstracted). -/
def valToDisplay : Val → String
  | Val.vstr s => s
  | Val.vint n => toString n
  | Val.vbool b => toString b
  | Val.vmap _ => "map[]"

/-- `getMapString` (stdio.go:684): convert a map value to `map[string]string`,
rendering non-string entries with `fmt.Sprint`. -/
def getMapString (m : List (String × Val)) (k : String) : Option (List (String × String)) :=
  match lookupVal m k with
  | some (Val.vmap va) => some (va.map fun p => (p.1, valToDisplay p.2))
  | _ => none

/-! ### The MCP service layer (internal/mcp/service.go)

Each service function computes the request the operation hands to the engine
(the engine's server round trip and the response shaping are the parts that
talk to the external server). -/

/-- `mcp.CreateResourceReq` (service.go:127); `DryRun *bool` becomes
`Option Bool` (`none` = field absent = default true). -/
structure CreateResourceReq where
  kind : String := ""
  apiVersion : String := ""
  name : String := ""
  generateName : String := ""
  nspace : String := ""
  spec : Option (List (String × Val)) := none
  labels : Option (List (String × String)) := none
  annotations : Option (List (String × String)) := none
  dryRun : Option Bool := none

/-- `mcp.UpdateResourceReq` (service.go:145). -/
structure UpdateResourceReq where
  kind : String := ""
  apiVersion : String := ""
  name : String := ""
  nspace : String := ""
  spec : Option (List (String × Val)) := none
  labels : Option (List (String × String)) := none
  annotations : Option (List (String × String)) := none
  dryRun : Option Bool := none
  force : Bool := false

/-- `mcp.DeleteResourceReq` (service.go:156). -/
structure DeleteResourceReq where
  kind : String := ""
  apiVersion : String := ""
  name : String := ""
  nspace : String := ""
  dryRun : Option Bool := none

/-- The dry-run defaulting of the service layer:
`dry := true; if r.DryRun != nil { dry = *r.DryRun }`. -/
def serviceDry (d : Option Bool) : Bool :=
  match d with
  | some b => b
  | none => true

/-- `Service.CreateResource` (service.go:218), up to the create request it
issues through `K8sClient.Create`. -/
def serviceCreateResource (disco : List APIGroupResources) (k : K8sClientModel)
    (r : CreateResourceReq) : Except String K8sCreateReq :=
  if r.kind = "" then Except.error "kind is required"
  else
    K8sCreate disco k.nspace
      { kind := r.kind, apiVersion := r.apiVersion, name := r.name,
        generateName := r.generateName,
        nspace := firstNonEmpty r.nspace k.nspace,
        labels := r.labels.getD [], annotations := r.annotations.getD [],
        spec := r.spec, dryRun := serviceDry r.dryRun }

/-- `Service.UpdateResource` (service.go:270): delegates directly to
`K8sClient.Apply` — it does not fetch the current object and does not merge. -/
def serviceUpdateResource (disco : List APIGroupResources) (k : K8sClientModel)
    (r : UpdateResourceReq) : Except String K8sPatchReq :=
  if r.kind = "" ∨ r.name = "" then Except.error "kind and name are required"
  else
    K8sApply disco k.nspace
      { kind := r.kind, apiVersion := r.apiVersion, name := r.name,
        nspace := firstNonEmpty r.nspace k.nspace,
        labels := r.labels.getD [], annotations := r.annotations.getD [],
        spec := r.spec, dryRun := serviceDry r.dryRun, force := r.force }

/-- `Service.DeleteResource` (service.go:298), up to the delete request. -/
def serviceDeleteResource (disco : List APIGroupResources) (k : K8sClientModel)
    (r : DeleteResourceReq) : Except String K8sDeleteReq :=
  if r.kind = "" ∨ r.name = "" then Except.error "kind and name are required"
  else
    K8sDelete disco k.nspace
      { kind := r.kind, apiVersion := r.apiVersion, name := r.name,
        nspace := firstNonEmpty r.nspace k.nspace, dryRun := serviceDry r.dryRun }

/-! ### Context switching (service.go ChangeContext, stdio.go handler)

`client.NewForProject` / `client.NewForOrg` build a fresh client against the
new target and set its `Namespace` to the passed default; `Preflight` calls
`ServerVersion` on the new target.  All three reach the network and are
abstracted as an environment. -/

/-- External collaborators of a context switch. -/
structure CtxEnv where
  newForProject : String → String → Except String K8sClientModel
  newForOrg : String → String → Except String K8sClientModel
  readyCheck : K8sClientModel → Except String Unit

/-- `mcp.ChangeContextReq` (service.go:115). -/
structure ChangeContextReq where
  project : String := ""
  org : String := ""
  nspace : String := ""

/-- `mcp.ChangeContextResp` (service.go:120). -/
structure ChangeContextResp where
  ok : Bool := false
  project : String := ""
  org : String := ""
  nspace : String := ""
deriving DecidableEq

/-- `Service.ChangeContext` (service.go:188): namespace-only mutation, the
exactly-one-of-project/org validation, building and preflighting the new
client before committing it.  Returns the new session state and the result. -/
def serviceChangeContext (env : CtxEnv) (k : K8sClientModel) (r : ChangeContextReq) :
    K8sClientModel × Except String ChangeContextResp :=
  if r.project = "" ∧ r.org = "" ∧ r.nspace ≠ "" then
    let k' := { k with nspace := r.nspace }
    (k', Except.ok { ok := true, nspace := k'.nspace })
  else if (r.project = "") = (r.org = "") then
    (k, Except.error "exactly one of project or org is required")
  else
    match (if r.project ≠ "" then
        env.newForProject r.project (firstNonEmpty r.nspace k.nspace)
      else
        env.newForOrg r.org (firstNonEmpty r.nspace k.nspace)) with
    | Except.error e => (k, Except.error e)
    | Except.ok nc =>
      match env.readyCheck nc with
      | Except.error e => (k, Except.error e)
      | Except.ok _ =>
        (nc, Except.ok { ok := true, project := r.project, org := r.org, nspace := nc.nspace })

/-- The `datum_change_context` handler of the stdio loop (stdio.go:149). -/
def stdioChangeContext (env : CtxEnv) (k : K8sClientModel) (args : List (String × Val)) :
    K8sClientModel × Reply :=
  let project := getStringDefault args "project"
  let org := getStringDefault args "org"
  let ns := getStringDefault args "namespace"
  if project = "" ∧ org = "" ∧ ns ≠ "" then
    let k' := { k with nspace := ns }
    (k', Reply.ok [("ok", Val.vbool true), ("namespace", Val.vstr k'.nspace)])
  else if (project = "") = (org = "") then
    (k, Reply.err JSONRPCInvalidParams "exactly one of project or org is required")
  else
    match (if project ≠ "" then
        env.newForProject project (firstNonEmpty ns k.nspace)
      else
        env.newForOrg org (firstNonEmpty ns k.nspace)) with
    | Except.error e => (k, Reply.err JSONRPCInternalError e)
    | Except.ok nc =>
      match env.readyCheck nc with
      | Except.error e => (k, Reply.err JSONRPCInternalError e)
      | Except.ok _ =>
        (nc, Reply.ok [("ok", Val.vbool true), ("project", Val.vstr project),
                       ("org", Val.vstr org), ("namespace", Val.vstr nc.nspace)])

/-! ### The stdio CRUD tool handlers (internal/mcp/stdio.go) -/

/-- The `datum_create_resource` handler (stdio.go:186), up to the create
request it issues through `K8sClient.Create`. -/
def stdioCreateResource (disco : List APIGroupResources) (k : K8sClientModel)
    (args : List (String × Val)) : Except Reply K8sCreateReq :=
  let kind := (getString args "kind").1
  if kind = "" then Except.error (Reply.err JSONRPCInvalidParams "kind is required")
  else
    match K8sCreate disco k.nspace
      { kind := kind, apiVersion := getStringDefault args "apiVersion",
        name := getStringDefault args "name",
        generateName := getStringDefault args "generateName",
        nspace := firstNonEmpty (getStringDefault args "namespace") k.nspace,
        labels := (getMapString args "labels").getD [],
        annotations := (getMapString args "annotations").getD [],
        spec := getMapAny args "spec",
        dryRun := getBoolDefault args "dryRun" true } with
    | Except.error e => Except.error (Reply.err JSONRPCInternalError e)
    | Except.ok req => Except.ok req

/-- The `datum_delete_resource` handler (stdio.go:387), up to the delete
request. -/
def stdioDeleteResource (disco : List APIGroupResources) (k : K8sClientModel)
    (args : List (String × Val)) : Except Reply K8sDeleteReq :=
  let kind := (getString args "kind").1
  let name := (getString args "name").1
  if kind = "" ∨ name = "" then
    Except.error (Reply.err JSONRPCInvalidParams "kind and name are required")
  else
    match K8sDelete disco k.nspace
      { kind := kind, apiVersion := getStringDefault args "apiVersion",
        name := name,
        nspace := firstNonEmpty (getStringDefault args "namespace") k.nspace,
        dryRun := getBoolDefault args "dryRun" true } with
    | Except.error e => Except.error (Reply.err JSONRPCInternalError e)
    | Except.ok req => Except.ok req

/-- The `datum_update_resource` handler (stdio.go:255), up to the apply patch
it issues: probe for the current object (discovering the apiVersion when none
was supplied, with a kind-resolution fallback), fail when the object is
absent, merge the supplied spec/labels/annotations into a copy of the current
object, and patch the merged object with server-side apply. -/
def stdioUpdateResource (env : ServerEnv) (k : K8sClientModel)
    (args : List (String × Val)) : Except Reply K8sPatchReq :=
  let kind := (getString args "kind").1
  let name := (getString args "name").1
  if kind = "" ∨ name = "" then
    Except.error (Reply.err JSONRPCInvalidParams "kind and name are required")
  else
    let ns := firstNonEmpty (getStringDefault args "namespace") k.nspace
    let spec := getMapAny args "spec"
    let labels := getMapString args "labels"
    let anns := getMapString args "annotations"
    let dry := getBoolDefault args "dryRun" true
    let force := getBoolDefault args "force" false
    let probe : Except Reply (String × Option (List (String × Val))) :=
      if getStringDefault args "apiVersion" = "" then
        match K8sGet env k.nspace { kind := kind, name := name, nspace := ns } with
        | Except.error _ =>
          match resolveKind env.disco kind "" with
          | Except.error resolveErr =>
            Except.error (Reply.err JSONRPCInternalError
              ("failed to resolve kind " ++ kind ++ ": " ++ resolveErr))
          | Except.ok rk => Except.ok (gvString rk.group rk.version, none)
        | Except.ok cur => Except.ok (objGetAPIVersion cur, some cur)
      else
        match K8sGet env k.nspace
          { kind := kind, apiVersion := getStringDefault args "apiVersion",
            name := name, nspace := ns } with
        | Except.error e =>
          Except.error (Reply.err JSONRPCInternalError
            ("failed to get current resource: " ++ e))
        | Except.ok cur => Except.ok (getStringDefault args "apiVersion", some cur)
    match probe with
    | Except.error r => Except.error r
    | Except.ok (apiVersion, currentObj) =>
      match currentObj with
      | none =>
        Except.error (Reply.err JSONRPCInternalError
          ("resource " ++ kind ++ "/" ++ name ++ " not found in namespace " ++ ns))
      | some cur =>
        let u1 := match spec with
          | some sp => objSetMap cur "spec" (mergeMaps ((objGetMap cur "spec").getD []) sp)
          | none => cur
        let u2 := match labels with
          | some ls => objSetStrMap u1 "labels" (strMapMerge (objGetStrMap u1 "labels") ls)
          | none => u1
        let u3 := match anns with
          | some an =>
            objSetStrMap u2 "annotations" (strMapMerge (objGetStrMap u2 "annotations") an)
          | none => u2
        match resolveKind env.disco kind apiVersion with
        | Except.error e => Except.error (Reply.err JSONRPCInternalError e)
        | Except.ok rk =>
          Except.ok
            { group := rk.group, version := rk.version, resource := rk.resource,
              nspace := if rk.namespaced then some (objGetNamespace u3) else none,
              name := name, body := u3, fieldManager := "datumctl-mcp",
              force := force, dryRun := ternary dry ["All"] [] }

/-! ### The tools/call preflight gate (stdio.go:105) -/

/-- The `tools/call` dispatch of `RunSTDIO`: extract the tool name and
arguments, reject a missing name, run the readiness check (`Preflight`)
against the active session, and only then dispatch to the named tool handler.
`runTool` abstracts the nine handler bodies; the returned list records which
tool handlers were dispatched. -/
def handleToolsCall (pf : Except String Unit)
    (runTool : String → List (String × Val) → Reply)
    (params : List (String × Val)) : Reply × List String :=
  let name := (getString params "name").1
  let args := (getMapAny params "arguments").getD []
  if name = "" then (Reply.err JSONRPCInvalidParams "Missing tool name", [])
  else
    match pf with
    | Except.error e => (Reply.err JSONRPCInternalError e, [])
    | Except.ok _ => (runTool name args, [name])

/-! ### The manifest validator (k8s_client.go ValidateYAML, service.go)

`ValidateYAML` splits the manifest, skips blank documents and processes each
remaining document through four stages: YAML decode, apiVersion/kind check,
REST mapping, then a server-side dry-run create.  The decoder, the REST
mapper and the server are external collaborators; each document is therefore
embedded as the outcome its processing would produce, in stage order. -/

/-- What happens when one document is processed (first failing stage wins). -/
inductive Stage where
  | decodeErr : String → Stage
  | missingApiVersionKind : Stage
  | mappingErr : String → String → Stage
  | serverReject : String → Stage
  | ok : Stage
deriving DecidableEq

/-- One document of the split manifest: whether it is blank, and its stage
outcome when processed. -/
structure MDoc where
  blank : Bool
  stage : Stage
deriving DecidableEq

/-- The error `ValidateYAML` returns for a failing stage, with the exact
wrapping of the source (`decode: %w`, `apiVersion/kind required`,
`rest mapping for %s: %w`, and the server error passed through unwrapped). -/
def stageError : Stage → Option String
  | Stage.decodeErr m => some ("decode: " ++ m)
  | Stage.missingApiVersionKind => some "apiVersion/kind required"
  | Stage.mappingErr gvk m => some ("rest mapping for " ++ gvk ++ ": " ++ m)
  | Stage.serverReject m => some m
  | Stage.ok => none

/-- Whether processing this document reaches the dry-run create call. -/
def stageIssuesCreate : Stage → Bool
  | Stage.serverReject _ => true
  | Stage.ok => true
  | _ => false

/-- The success message `validated %d object(s) (server-side dry-run)`. -/
def validatedMsg (n : Nat) : String :=
  "validated " ++ toString n ++ " object(s) (server-side dry-run)"

/-- Result of `K8sClient.ValidateYAML`: the `(bool, string, error)` return,
plus the number of dry-run creates the run issued. -/
structure VResult where
  valid : Bool
  output : String
  err : Option String
  creates : Nat
deriving DecidableEq

/-- The document loop of `K8sClient.ValidateYAML` (k8s_client.go:94):
skip blank documents, stop at the first failing document returning
`(false, "", err)`, and report the validated count on success. -/
def validateLoop : List MDoc → Nat → Nat → VResult
  | [], validated, creates =>
    { valid := true, output := validatedMsg validated, err := none, creates := creates }
  | d :: rest, validated, creates =>
    if d.blank then validateLoop rest validated creates
    else
      match stageError d.stage with
      | some e =>
        { valid := false, output := "", err := some e,
          creates := creates + (if stageIssuesCreate d.stage then 1 else 0) }
      | none => validateLoop rest (validated + 1) (creates + 1)

/-- `K8sClient.ValidateYAML` over the split document list. -/
def validateYAMLGo (docs : List MDoc) : VResult := validateLoop docs 0 0

/-- `mcp.ValidateResp` (service.go:41). -/
structure ValidateResp where
  valid : Bool
  output : String
deriving DecidableEq

/-- `Service.ValidateYAML` (service.go:110): `ok, out, _ := K.ValidateYAML(...)`
— the error return is discarded into the blank identifier and only the
`(valid, output)` pair reaches the caller. -/
def serviceValidateYAML (docs : List MDoc) : ValidateResp :=
  let r := validateYAMLGo docs
  { valid := r.valid, output := r.output }

/-! ### Concrete fixtures used by counterexamples and witnesses -/

/-- Discovery with the kind Widget served by exactly one group/version. -/
def exDiscoUnique : List APIGroupResources :=
  [ { groupName := "apps",
      versionedResources :=
        [("v1", [{ name := "widgets", kind := "Widget", namespaced := true }])] } ]

/-- Discovery with the kind Widget served by two distinct group/versions. -/
def exDiscoAmbiguous : List APIGroupResources :=
  [ { groupName := "apps",
      versionedResources :=
        [("v1", [{ name := "widgets", kind := "Widget", namespaced := true }])] },
    { groupName := "batch",
      versionedResources :=
        [("v1", [{ name := "widgets", kind := "Widget", namespaced := true }])] } ]

/-- A live Widget object with spec `{a: 1, b: 2}`. -/
def exWidgetObj : List (String × Val) :=
  [("apiVersion", Val.vstr "apps/v1"), ("kind", Val.vstr "Widget"),
   ("metadata", Val.vmap [("name", Val.vstr "w1"), ("namespace", Val.vstr "default")]),
   ("spec", Val.vmap [("a", Val.vint 1), ("b", Val.vint 2)])]

/-- A server holding exactly the Widget `default/w1`. -/
def exEnv : ServerEnv :=
  { disco := exDiscoUnique,
    fetch := fun rk ns name =>
      if rk.kind = "Widget" ∧ ns = some "default" ∧ name = "w1" then Except.ok exWidgetObj
      else Except.error "widgets \"w1\" not found" }

/-- A server holding no objects at all. -/
def exEnvEmpty : ServerEnv :=
  { disco := exDiscoUnique,
    fetch := fun _ _ _ => Except.error "widgets \"w1\" not found" }

/-- The active session used by the concrete scenarios. -/
def exK : K8sClientModel := { transport := 7, nspace := "default" }

/-- `update_resource` arguments: kind Widget, name w1, spec `{a: 2}`. -/
def exUpdateArgs : List (String × Val) :=
  [("kind", Val.vstr "Widget"), ("name", Val.vstr "w1"),
   ("spec", Val.vmap [("a", Val.vint 2)])]

/-- The same update request in the service-layer shape (as the HTTP front end
decodes it). -/
def exUpdateReq : UpdateResourceReq :=
  { kind := "Widget", name := "w1", spec := some [("a", Val.vint 2)] }

/-- A context-switch environment whose readiness check always fails. -/
def exCtxEnvDown : CtxEnv :=
  { newForProject := fun _ ns => Except.ok { transport := 99, nspace := ns },
    newForOrg := fun _ ns => Except.ok { transport := 98, nspace := ns },
    readyCheck := fun _ => Except.error "kubernetes API unreachable: dial tcp" }

/-- Create options supplying both a name and a generateName. -/
def exCreateOpt : CreateOptions :=
  { kind := "Widget", name := "w1", generateName := "w-" }

/-- The create request `K8sClient.Create` issues for `exCreateOpt` against
`exDiscoUnique` with default namespace `default`. -/
def exCreateReq : K8sCreateReq :=
  { group := "apps", version := "v1", resource := "widgets",
    nspace := some "default",
    obj := [("apiVersion", Val.vstr "apps/v1"), ("kind", Val.vstr "Widget"),
            ("metadata", Val.vmap
              [("labels", Val.vmap []), ("annotations", Val.vmap []),
               ("name", Val.vstr "w1"), ("namespace", Val.vstr "default")]),
            ("spec", Val.vmap [])],
    dryRun := ["All"] }

/-! ## Lemmas about association lists and the merge -/

theorem lookupVal_setKey_self (a : List (String × Val)) (k : String) (v : Val) :
    lookupVal (setKey a k v) k = some v := by
  induction a with
  | nil => simp [setKey, lookupVal]
  | cons p rest ih =>
    obtain ⟨k0, v0⟩ := p
    by_cases h : k0 = k
    · simp [setKey, h, lookupVal]
    · simp [setKey, h, lookupVal, ih]

theorem lookupVal_setKey_ne (a : List (String × Val)) (k k2 : String) (v : Val)
    (h : k ≠ k2) : lookupVal (setKey a k v) k2 = lookupVal a k2 := by
  induction a with
  | nil => simp [setKey, lookupVal, h]
  | cons p rest ih =>
    obtain ⟨k0, v0⟩ := p
    by_cases h0 : k0 = k
    · subst h0
      simp [setKey, lookupVal, h]
    · simp [setKey, h0, lookupVal, ih]

theorem setKey_same (a : List (String × Val)) (k : String) (v : Val)
    (h : lookupVal a k = some v) : setKey a k v = a := by
  induction a with
  | nil => simp [lookupVal] at h
  | cons p rest ih =>
    obtain ⟨k0, v0⟩ := p
    by_cases h0 : k0 = k
    · subst h0
      simp [lookupVal] at h
      simp [setKey, h]
    · simp [lookupVal, h0] at h
      simp [setKey, h0, ih h]

theorem hasKey_of_mem (a : List (String × Val)) (k : String) (v : Val)
    (h : (k, v) ∈ a) : hasKey a k = true := by
  induction a with
  | nil => simp at h
  | cons p rest ih =>
    obtain ⟨k0, v0⟩ := p
    rcases List.mem_cons.mp h with h1 | h1
    · obtain ⟨rfl, rfl⟩ := Prod.mk.injEq .. ▸ h1
      simp [hasKey]
    · simp [hasKey, ih h1]

theorem wfFields_cons (k : String) (v : Val) (rest : List (String × Val)) :
    wfFields ((k, v) :: rest) = (!hasKey rest k && wfVal v && wfFields rest) := rfl

theorem lookupVal_of_mem_wf (a : List (String × Val)) (k : String) (v : Val)
    (hw : wfFields a = true) (h : (k, v) ∈ a) : lookupVal a k = some v := by
  induction a with
  | nil => simp at h
  | cons p rest ih =>
    obtain ⟨k0, v0⟩ := p
    rw [wfFields_cons] at hw
    simp only [Bool.and_eq_true, Bool.not_eq_true'] at hw
    rcases List.mem_cons.mp h with h1 | h1
    · obtain ⟨rfl, rfl⟩ := Prod.mk.injEq .. ▸ h1
      simp [lookupVal]
    · have hne : k0 ≠ k := by
        intro hk
        subst hk
        rw [hasKey_of_mem rest k0 v h1] at hw
        exact absurd hw.1.1 (by simp)
      simp [lookupVal, hne, ih hw.2 h1]

theorem wfVal_of_mem_wf (a : List (String × Val)) (k : String) (v : Val)
    (hw : wfFields a = true) (h : (k, v) ∈ a) : wfVal v = true := by
  induction a with
  | nil => simp at h
  | cons p rest ih =>
    obtain ⟨k0, v0⟩ := p
    rw [wfFields_cons] at hw
    simp only [Bool.and_eq_true, Bool.not_eq_true'] at hw
    rcases List.mem_cons.mp h with h1 | h1
    · obtain ⟨rfl, rfl⟩ := Prod.mk.injEq .. ▸ h1
      exact hw.1.2
    · exact ih hw.2 h1

theorem mergeKey_lookup_ne (a : List (String × Val)) (k2 : String) (v : Val)
    (k : String) (h : k2 ≠ k) : lookupVal (mergeKey a k2 v) k = lookupVal a k := by
  cases v with
  | vmap bm =>
    unfold mergeKey
    cases hl : lookupVal a k2 with
    | none => exact lookupVal_setKey_ne a k2 k _ h
    | some w =>
      cases w <;> simp only <;> exact lookupVal_setKey_ne a k2 k _ h
  | vstr s => exact lookupVal_setKey_ne a k2 k _ h
  | vint n => exact lookupVal_setKey_ne a k2 k _ h
  | vbool b => exact lookupVal_setKey_ne a k2 k _ h

theorem lookupVal_mergeMaps_notKey (b : List (String × Val)) :
    ∀ a k, hasKey b k = false → lookupVal (mergeMaps a b) k = lookupVal a k := by
  induction b with
  | nil => intro a k _; rfl
  | cons p rest ih =>
    intro a k h
    obtain ⟨k2, v2⟩ := p
    simp only [hasKey, Bool.or_eq_false_iff, beq_eq_false_iff_ne] at h
    show lookupVal (mergeMaps (mergeKey a k2 v2) rest) k = lookupVal a k
    rw [ih (mergeKey a k2 v2) k h.2, mergeKey_lookup_ne a k2 v2 k h.1]

theorem mergeKey_vmap_some_vmap (c : List (String × Val)) (k : String)
    (am bm : List (String × Val)) (h : lookupVal c k = some (Val.vmap am)) :
    mergeKey c k (Val.vmap bm) = setKey c k (Val.vmap (mergeMaps am bm)) := by
  unfold mergeKey
  rw [h]

theorem mergeKey_vmap_none (c : List (String × Val)) (k : String)
    (bm : List (String × Val)) (h : lookupVal c k = none) :
    mergeKey c k (Val.vmap bm) = setKey c k (Val.vmap bm) := by
  unfold mergeKey
  rw [h]

theorem mergeKey_vmap_other (c : List (String × Val)) (k : String)
    (bm : List (String × Val)) (w : Val) (h : lookupVal c k = some w)
    (hw : ∀ am, w ≠ Val.vmap am) :
    mergeKey c k (Val.vmap bm) = setKey c k (Val.vmap bm) := by
  unfold mergeKey
  rw [h]
  cases w with
  | vmap am => exact absurd rfl (hw am)
  | vstr s => rfl
  | vint n => rfl
  | vbool bb => rfl

theorem mergeKey_nonmap (c : List (String × Val)) (k : String) (v : Val)
    (hv : ∀ bm, v ≠ Val.vmap bm) : mergeKey c k v = setKey c k v := by
  cases v with
  | vmap bm => exact absurd rfl (hv bm)
  | vstr s => rfl
  | vint n => rfl
  | vbool bb => rfl

theorem lookupVal_mergeMaps_both (b : List (String × Val)) :
    ∀ a k am bm, wfFields b = true →
      lookupVal a k = some (Val.vmap am) → lookupVal b k = some (Val.vmap bm) →
      lookupVal (mergeMaps a b) k = some (Val.vmap (mergeMaps am bm)) := by
  induction b with
  | nil => intro a k am bm _ _ hb; simp [lookupVal] at hb
  | cons p rest ih =>
    intro a k am bm hw ha hb
    obtain ⟨k2, v2⟩ := p
    rw [wfFields_cons] at hw
    simp only [Bool.and_eq_true, Bool.not_eq_true'] at hw
    by_cases hk : k2 = k
    · subst hk
      have hv2 : v2 = Val.vmap bm := by
        have := hb
        simp [lookupVal] at this
        exact this
      subst hv2
      show lookupVal (mergeMaps (mergeKey a k2 (Val.vmap bm)) rest) k2 = _
      rw [lookupVal_mergeMaps_notKey rest _ k2 hw.1.1,
        mergeKey_vmap_some_vmap a k2 am bm ha]
      exact lookupVal_setKey_self a k2 _
    · simp only [lookupVal, if_neg hk] at hb
      show lookupVal (mergeMaps (mergeKey a k2 v2) rest) k = _
      exact ih (mergeKey a k2 v2) k am bm hw.2
        (by rw [mergeKey_lookup_ne a k2 v2 k hk]; exact ha) hb

theorem lookupVal_mergeMaps_replace (b : List (String × Val)) :
    ∀ a k v, wfFields b = true → lookupVal b k = some v →
      (∀ am bm, lookupVal a k = some (Val.vmap am) → v = Val.vmap bm → False) →
      lookupVal (mergeMaps a b) k = some v := by
  induction b with
  | nil => intro a k v _ hb _; simp [lookupVal] at hb
  | cons p rest ih =>
    intro a k v hw hb hnot
    obtain ⟨k2, v2⟩ := p
    rw [wfFields_cons] at hw
    simp only [Bool.and_eq_true, Bool.not_eq_true'] at hw
    by_cases hk : k2 = k
    · subst hk
      have hv2 : v2 = v := by
        have := hb
        simp [lookupVal] at this
        exact this
      subst hv2
      show lookupVal (mergeMaps (mergeKey a k2 v2) rest) k2 = _
      rw [lookupVal_mergeMaps_notKey rest _ k2 hw.1.1]
      cases v2 with
      | vmap bm =>
        cases hl : lookupVal a k2 with
        | none =>
          rw [mergeKey_vmap_none a k2 bm hl]
          exact lookupVal_setKey_self a k2 _
        | some w =>
          cases w with
          | vmap am => exact absurd rfl (hnot am bm hl)
          | vstr s =>
            rw [mergeKey_vmap_other a k2 bm _ hl (fun am h => Val.noConfusion h)]
            exact lookupVal_setKey_self a k2 _
          | vint n =>
            rw [mergeKey_vmap_other a k2 bm _ hl (fun am h => Val.noConfusion h)]
            exact lookupVal_setKey_self a k2 _
          | vbool bb =>
            rw [mergeKey_vmap_other a k2 bm _ hl (fun am h => Val.noConfusion h)]
            exact lookupVal_setKey_self a k2 _
      | vstr s => exact lookupVal_setKey_self a k2 _
      | vint n => exact lookupVal_setKey_self a k2 _
      | vbool bb => exact lookupVal_setKey_self a k2 _
    · simp only [lookupVal, if_neg hk] at hb
      show lookupVal (mergeMaps (mergeKey a k2 v2) rest) k = _
      exact ih (mergeKey a k2 v2) k v hw.2 hb
        (fun am bm hla hv => hnot am bm (by rwa [mergeKey_lookup_ne a k2 v2 k hk] at hla) hv)

theorem mergeAbsorb (b : List (String × Val)) :
    ∀ c, (∀ p ∈ b, mergeKey c p.1 p.2 = c) → mergeMaps c b = c := by
  induction b with
  | nil => intro c _; rfl
  | cons p rest ih =>
    intro c h
    obtain ⟨k, v⟩ := p
    show mergeMaps (mergeKey c k v) rest = c
    rw [h (k, v) (List.mem_cons_self _ _)]
    exact ih c fun q hq => h q (List.mem_cons_of_mem _ hq)

theorem mergeMaps_self (m : List (String × Val)) (hw : wfFields m = true) :
    mergeMaps m m = m := by
  apply mergeAbsorb
  intro p hp
  obtain ⟨k, v⟩ := p
  have hl : lookupVal m k = some v := lookupVal_of_mem_wf m k v hw hp
  cases v with
  | vmap vm =>
    have hvm : wfFields vm = true := wfVal_of_mem_wf m k (Val.vmap vm) hw hp
    have hsz : sizeOf vm < sizeOf m := by
      have h1 := List.sizeOf_lt_of_mem hp
      simp only [Prod.mk.sizeOf_spec, Val.vmap.sizeOf_spec] at h1
      omega
    show mergeKey m k (Val.vmap vm) = m
    rw [mergeKey_vmap_some_vmap m k vm vm hl, mergeMaps_self vm hvm]
    exact setKey_same m k (Val.vmap vm) hl
  | vstr s => exact setKey_same m k _ hl
  | vint n => exact setKey_same m k _ hl
  | vbool bb => exact setKey_same m k _ hl
termination_by sizeOf m
decreasing_by
  exact hsz

theorem mergeStep_absorb_nonmap (a rest : List (String × Val)) (k : String) (v : Val)
    (hv : ∀ bm, v ≠ Val.vmap bm) (hr : hasKey rest k = false) :
    mergeKey (mergeMaps (mergeKey a k v) rest) k v =
      mergeMaps (mergeKey a k v) rest := by
  have hXv : lookupVal (mergeMaps (mergeKey a k v) rest) k = some v := by
    rw [lookupVal_mergeMaps_notKey rest _ k hr, mergeKey_nonmap a k v hv]
    exact lookupVal_setKey_self a k v
  rw [mergeKey_nonmap _ k v hv]
  exact setKey_same _ k v hXv

theorem mergeMaps_idem :
    (b : List (String × Val)) → wfFields b = true → ∀ a,
      mergeMaps (mergeMaps a b) b = mergeMaps a b
  | [], _, _ => rfl
  | (k, Val.vstr s) :: rest, hw, a => by
    rw [wfFields_cons] at hw
    simp only [Bool.and_eq_true, Bool.not_eq_true'] at hw
    show mergeMaps (mergeKey (mergeMaps (mergeKey a k (Val.vstr s)) rest) k (Val.vstr s))
      rest = mergeMaps (mergeKey a k (Val.vstr s)) rest
    rw [mergeStep_absorb_nonmap a rest k (Val.vstr s) (fun bm h => Val.noConfusion h)
      hw.1.1]
    exact mergeMaps_idem rest hw.2 (mergeKey a k (Val.vstr s))
  | (k, Val.vint n) :: rest, hw, a => by
    rw [wfFields_cons] at hw
    simp only [Bool.and_eq_true, Bool.not_eq_true'] at hw
    show mergeMaps (mergeKey (mergeMaps (mergeKey a k (Val.vint n)) rest) k (Val.vint n))
      rest = mergeMaps (mergeKey a k (Val.vint n)) rest
    rw [mergeStep_absorb_nonmap a rest k (Val.vint n) (fun bm h => Val.noConfusion h)
      hw.1.1]
    exact mergeMaps_idem rest hw.2 (mergeKey a k (Val.vint n))
  | (k, Val.vbool bb) :: rest, hw, a => by
    rw [wfFields_cons] at hw
    simp only [Bool.and_eq_true, Bool.not_eq_true'] at hw
    show mergeMaps
      (mergeKey (mergeMaps (mergeKey a k (Val.vbool bb)) rest) k (Val.vbool bb)) rest =
      mergeMaps (mergeKey a k (Val.vbool bb)) rest
    rw [mergeStep_absorb_nonmap a rest k (Val.vbool bb) (fun bm h => Val.noConfusion h)
      hw.1.1]
    exact mergeMaps_idem rest hw.2 (mergeKey a k (Val.vbool bb))
  | (k, Val.vmap bm) :: rest, hw, a => by
    rw [wfFields_cons] at hw
    simp only [Bool.and_eq_true, Bool.not_eq_true'] at hw
    show mergeMaps
      (mergeKey (mergeMaps (mergeKey a k (Val.vmap bm)) rest) k (Val.vmap bm)) rest =
      mergeMaps (mergeKey a k (Val.vmap bm)) rest
    have hX : lookupVal (mergeMaps (mergeKey a k (Val.vmap bm)) rest) k =
        lookupVal (mergeKey a k (Val.vmap bm)) k :=
      lookupVal_mergeMaps_notKey rest _ k hw.1.1
    have hbm : wfFields bm = true := hw.1.2
    have hstep : mergeKey (mergeMaps (mergeKey a k (Val.vmap bm)) rest) k (Val.vmap bm) =
        mergeMaps (mergeKey a k (Val.vmap bm)) rest := by
      cases hl : lookupVal a k with
      | none =>
        have hXv : lookupVal (mergeMaps (mergeKey a k (Val.vmap bm)) rest) k =
            some (Val.vmap bm) := by
          rw [hX, mergeKey_vmap_none a k bm hl]
          exact lookupVal_setKey_self a k _
        rw [mergeKey_vmap_some_vmap _ k bm bm hXv, mergeMaps_self bm hbm]
        exact setKey_same _ k _ hXv
      | some w =>
        cases w with
        | vmap am =>
          have hXv : lookupVal (mergeMaps (mergeKey a k (Val.vmap bm)) rest) k =
              some (Val.vmap (mergeMaps am bm)) := by
            rw [hX, mergeKey_vmap_some_vmap a k am bm hl]
            exact lookupVal_setKey_self a k _
          rw [mergeKey_vmap_some_vmap _ k (mergeMaps am bm) bm hXv,
            mergeMaps_idem bm hbm am]
          exact setKey_same _ k _ hXv
        | vstr s =>
          have hXv : lookupVal (mergeMaps (mergeKey a k (Val.vmap bm)) rest) k =
              some (Val.vmap bm) := by
            rw [hX, mergeKey_vmap_other a k bm _ hl (fun am h => Val.noConfusion h)]
            exact lookupVal_setKey_self a k _
          rw [mergeKey_vmap_some_vmap _ k bm bm hXv, mergeMaps_self bm hbm]
          exact setKey_same _ k _ hXv
        | vint n =>
          have hXv : lookupVal (mergeMaps (mergeKey a k (Val.vmap bm)) rest) k =
              some (Val.vmap bm) := by
            rw [hX, mergeKey_vmap_other a k bm _ hl (fun am h => Val.noConfusion h)]
            exact lookupVal_setKey_self a k _
          rw [mergeKey_vmap_some_vmap _ k bm bm hXv, mergeMaps_self bm hbm]
          exact setKey_same _ k _ hXv
        | vbool bb =>
          have hXv : lookupVal (mergeMaps (mergeKey a k (Val.vmap bm)) rest) k =
              some (Val.vmap bm) := by
            rw [hX, mergeKey_vmap_other a k bm _ hl (fun am h => Val.noConfusion h)]
            exact lookupVal_setKey_self a k _
          rw [mergeKey_vmap_some_vmap _ k bm bm hXv, mergeMaps_self bm hbm]
          exact setKey_same _ k _ hXv
    rw [hstep]
    exact mergeMaps_idem rest hw.2 (mergeKey a k (Val.vmap bm))
termination_by b _ _ => sizeOf b
decreasing_by
  all_goals simp only [List.cons.sizeOf_spec, Prod.mk.sizeOf_spec, Val.vmap.sizeOf_spec]
  all_goals omega

theorem two_distinct_of_one_lt_dedup (l : List String) (h : 1 < l.dedup.length) :
    ∃ x ∈ l, ∃ y ∈ l, x ≠ y := by
  cases hd : l.dedup with
  | nil => rw [hd] at h; simp at h
  | cons x t =>
    cases ht : t with
    | nil => rw [hd, ht] at h; simp at h
    | cons y t2 =>
      subst ht
      have hnd : l.dedup.Nodup := List.nodup_dedup l
      rw [hd] at hnd
      have hxy : x ≠ y := by
        intro hxy
        subst hxy
        exact (List.nodup_cons.mp hnd).1 (List.mem_cons_self _ _)
      have hx : x ∈ l := List.mem_dedup.mp (hd ▸ List.mem_cons_self x (y :: t2))
      have hy : y ∈ l :=
        List.mem_dedup.mp (hd ▸ List.mem_cons_of_mem x (List.mem_cons_self y t2))
      exact ⟨x, hx, y, hy, hxy⟩

theorem one_lt_dedup_of_two_distinct (l : List String) (x y : String)
    (hx : x ∈ l) (hy : y ∈ l) (hxy : x ≠ y) : 1 < l.dedup.length := by
  have hx2 : x ∈ l.dedup := List.mem_dedup.mpr hx
  have hy2 : y ∈ l.dedup := List.mem_dedup.mpr hy
  cases hd : l.dedup with
  | nil => rw [hd] at hx2; simp at hx2
  | cons z t =>
    cases ht : t with
    | nil =>
      rw [hd, ht] at hx2 hy2
      simp at hx2 hy2
      exact absurd (hx2.trans hy2.symm) hxy
    | cons w t2 => simp [hd, ht]

theorem stageError_eq_none_iff (s : Stage) : stageError s = none ↔ s = Stage.ok := by
  cases s <;> simp [stageError]

theorem validateLoop_all_ok (docs : List MDoc) :
    ∀ vacc cacc, (∀ d ∈ docs.filter (fun d => !d.blank), d.stage = Stage.ok) →
      validateLoop docs vacc cacc =
        { valid := true,
          output := validatedMsg (vacc + (docs.filter (fun d => !d.blank)).length),
          err := none,
          creates := cacc + (docs.filter (fun d => !d.blank)).length } := by
  induction docs with
  | nil => intro vacc cacc _; simp [validateLoop, List.filter]
  | cons d rest ih =>
    intro vacc cacc hok
    by_cases hb : d.blank
    · have hf : (d :: rest).filter (fun d => !d.blank) =
          rest.filter (fun d => !d.blank) := by
        simp [List.filter_cons, hb]
      rw [hf] at hok ⊢
      show validateLoop (d :: rest) vacc cacc = _
      unfold validateLoop
      rw [if_pos hb]
      exact ih vacc cacc hok
    · have hf : (d :: rest).filter (fun d => !d.blank) =
          d :: rest.filter (fun d => !d.blank) := by
        simp [List.filter_cons, hb]
      have hdok : d.stage = Stage.ok :=
        hok d (by rw [hf]; exact List.mem_cons_self _ _)
      have hrok : ∀ x ∈ rest.filter (fun d => !d.blank), x.stage = Stage.ok := by
        intro x hx
        exact hok x (by rw [hf]; exact List.mem_cons_of_mem _ hx)
      unfold validateLoop
      rw [if_neg hb, (stageError_eq_none_iff d.stage).mpr hdok]
      rw [ih (vacc + 1) (cacc + 1) hrok, hf]
      simp only [List.length_cons]
      have h1 : vacc + 1 + (rest.filter (fun d => !d.blank)).length =
          vacc + ((rest.filter (fun d => !d.blank)).length + 1) := by omega
      have h2 : cacc + 1 + (rest.filter (fun d => !d.blank)).length =
          cacc + ((rest.filter (fun d => !d.blank)).length + 1) := by omega
      rw [h1, h2]

theorem validateLoop_fail (docs : List MDoc) :
    ∀ pre bad post vacc cacc,
      docs.filter (fun d => !d.blank) = pre ++ bad :: post →
      (∀ d ∈ pre, d.stage = Stage.ok) → bad.stage ≠ Stage.ok →
      validateLoop docs vacc cacc =
        { valid := false, output := "", err := stageError bad.stage,
          creates := cacc + pre.length +
            (if stageIssuesCreate bad.stage then 1 else 0) } := by
  induction docs with
  | nil =>
    intro pre bad post vacc cacc hsplit _ _
    simp [List.filter] at hsplit
  | cons d rest ih =>
    intro pre bad post vacc cacc hsplit hpre hbad
    by_cases hb : d.blank
    · have hf : (d :: rest).filter (fun d => !d.blank) =
          rest.filter (fun d => !d.blank) := by
        simp [List.filter_cons, hb]
      rw [hf] at hsplit
      unfold validateLoop
      rw [if_pos hb]
      exact ih pre bad post vacc cacc hsplit hpre hbad
    · have hf : (d :: rest).filter (fun d => !d.blank) =
          d :: rest.filter (fun d => !d.blank) := by
        simp [List.filter_cons, hb]
      rw [hf] at hsplit
      cases pre with
      | nil =>
        simp only [List.nil_append, List.cons.injEq] at hsplit
        obtain ⟨rfl, _⟩ := hsplit
        unfold validateLoop
        rw [if_neg hb]
        cases hse : stageError d.stage with
        | none => exact absurd ((stageError_eq_none_iff d.stage).mp hse) hbad
        | some e =>
          simp only [List.length_nil]
          have : cacc + 0 + (if stageIssuesCreate d.stage then 1 else 0) =
              cacc + (if stageIssuesCreate d.stage then 1 else 0) := by omega
          rw [this]
      | cons p pre2 =>
        simp only [List.cons_append, List.cons.injEq] at hsplit
        obtain ⟨rfl, hsplit2⟩ := hsplit
        have hdok : d.stage = Stage.ok := hpre d (List.mem_cons_self _ _)
        unfold validateLoop
        rw [if_neg hb, (stageError_eq_none_iff d.stage).mpr hdok]
        rw [ih pre2 bad post (vacc + 1) (cacc + 1) hsplit2
          (fun x hx => hpre x (List.mem_cons_of_mem _ hx)) hbad]
        simp only [List.length_cons]
        have : cacc + 1 + pre2.length = cacc + (pre2.length + 1) := by omega
        rw [this]

theorem getBoolDefault_none (args : List (String × Val)) (k : String) (dflt : Bool)
    (h : lookupVal args k = none) : getBoolDefault args k dflt = dflt := by
  unfold getBoolDefault
  rw [h]

theorem getBoolDefault_eq_false (args : List (String × Val)) (k : String)
    (h : getBoolDefault args k true = false) :
    lookupVal args k = some (Val.vbool false) := by
  unfold getBoolDefault at h
  cases hl : lookupVal args k with
  | none => rw [hl] at h; cases h
  | some v =>
    rw [hl] at h
    cases v with
    | vbool b => cases b with
      | false => rfl
      | true => cases h
    | vstr s => cases h
    | vint n => cases h
    | vmap m => cases h

theorem serviceDry_eq_false (o : Option Bool) (h : serviceDry o = false) :
    o = some false := by
  cases o with
  | none => cases h
  | some b =>
    cases b with
    | false => rfl
    | true => cases h

theorem ternary_dryRun_eq_nil (d : Bool)
    (h : ternary d (["All"] : List String) [] = []) : d = false := by
  cases d with
  | false => rfl
  | true => cases h

theorem K8sCreate_dryRun (disco : List APIGroupResources) (defaultNs : String)
    (opt : CreateOptions) (req : K8sCreateReq)
    (h : K8sCreate disco defaultNs opt = Except.ok req) :
    req.dryRun = ternary opt.dryRun ["All"] [] := by
  unfold K8sCreate at h
  cases hres : resolveKind disco opt.kind opt.apiVersion with
  | error e => rw [hres] at h; exact Except.noConfusion h
  | ok rk =>
    rw [hres] at h
    simp only [Except.ok.injEq] at h
    subst h
    rfl

theorem K8sApply_dryRun (disco : List APIGroupResources) (defaultNs : String)
    (opt : ApplyOptions) (req : K8sPatchReq)
    (h : K8sApply disco defaultNs opt = Except.ok req) :
    req.dryRun = ternary opt.dryRun ["All"] [] := by
  unfold K8sApply at h
  cases hres : resolveKind disco opt.kind opt.apiVersion with
  | error e => rw [hres] at h; exact Except.noConfusion h
  | ok rk =>
    rw [hres] at h
    simp only [Except.ok.injEq] at h
    subst h
    rfl

theorem K8sDelete_dryRun (disco : List APIGroupResources) (defaultNs : String)
    (opt : DeleteOptions) (req : K8sDeleteReq)
    (h : K8sDelete disco defaultNs opt = Except.ok req) :
    req.dryRun = ternary opt.dryRun ["All"] [] := by
  unfold K8sDelete at h
  cases hres : resolveKind disco opt.kind opt.apiVersion with
  | error e => rw [hres] at h; exact Except.noConfusion h
  | ok rk =>
    rw [hres] at h
    simp only [Except.ok.injEq] at h
    subst h
    rfl

theorem serviceCreateResource_dryRun (disco : List APIGroupResources)
    (k : K8sClientModel) (rc : CreateResourceReq) (req : K8sCreateReq)
    (h : serviceCreateResource disco k rc = Except.ok req) :
    req.dryRun = ternary (serviceDry rc.dryRun) ["All"] [] := by
  unfold serviceCreateResource at h
  by_cases hk : rc.kind = ""
  · rw [if_pos hk] at h; exact Except.noConfusion h
  · rw [if_neg hk] at h
    exact K8sCreate_dryRun _ _ _ _ h

theorem serviceUpdateResource_dryRun (disco : List APIGroupResources)
    (k : K8sClientModel) (ru : UpdateResourceReq) (req : K8sPatchReq)
    (h : serviceUpdateResource disco k ru = Except.ok req) :
    req.dryRun = ternary (serviceDry ru.dryRun) ["All"] [] := by
  unfold serviceUpdateResource at h
  by_cases hk : ru.kind = "" ∨ ru.name = ""
  · rw [if_pos hk] at h; exact Except.noConfusion h
  · rw [if_neg hk] at h
    exact K8sApply_dryRun _ _ _ _ h

theorem serviceDeleteResource_dryRun (disco : List APIGroupResources)
    (k : K8sClientModel) (rd : DeleteResourceReq) (req : K8sDeleteReq)
    (h : serviceDeleteResource disco k rd = Except.ok req) :
    req.dryRun = ternary (serviceDry rd.dryRun) ["All"] [] := by
  unfold serviceDeleteResource at h
  by_cases hk : rd.kind = "" ∨ rd.name = ""
  · rw [if_pos hk] at h; exact Except.noConfusion h
  · rw [if_neg hk] at h
    exact K8sDelete_dryRun _ _ _ _ h

theorem stdioCreateResource_dryRun (disco : List APIGroupResources)
    (k : K8sClientModel) (args : List (String × Val)) (req : K8sCreateReq)
    (h : stdioCreateResource disco k args = Except.ok req) :
    req.dryRun = ternary (getBoolDefault args "dryRun" true) ["All"] [] := by
  simp only [stdioCreateResource] at h
  split at h
  · exact Except.noConfusion h
  · split at h
    · exact Except.noConfusion h
    · rename_i req2 hc
      simp only [Except.ok.injEq] at h
      subst h
      exact K8sCreate_dryRun _ _ _ _ hc

theorem stdioDeleteResource_dryRun (disco : List APIGroupResources)
    (k : K8sClientModel) (args : List (String × Val)) (req : K8sDeleteReq)
    (h : stdioDeleteResource disco k args = Except.ok req) :
    req.dryRun = ternary (getBoolDefault args "dryRun" true) ["All"] [] := by
  simp only [stdioDeleteResource] at h
  split at h
  · exact Except.noConfusion h
  · split at h
    · exact Except.noConfusion h
    · rename_i req2 hc
      simp only [Except.ok.injEq] at h
      subst h
      exact K8sDelete_dryRun _ _ _ _ hc

theorem stdioUpdateResource_dryRun (env : ServerEnv) (k : K8sClientModel)
    (args : List (String × Val)) (req : K8sPatchReq)
    (h : stdioUpdateResource env k args = Except.ok req) :
    req.dryRun = ternary (getBoolDefault args "dryRun" true) ["All"] [] := by
  simp only [stdioUpdateResource] at h
  repeat
    first
    | exact Except.noConfusion h
    | split at h
  all_goals simp only [Except.ok.injEq] at h
  all_goals subst h
  all_goals rfl

theorem serverApplyCreate_persists (st : ServerState) (req : K8sCreateReq)
    (h : serverApplyCreate st req ≠ st) : req.dryRun = [] := by
  by_cases hd : req.dryRun = []
  · exact hd
  · exact absurd (by unfold serverApplyCreate; rw [if_neg hd]) h

theorem serverApplyPatch_persists (st : ServerState) (req : K8sPatchReq)
    (h : serverApplyPatch st req ≠ st) : req.dryRun = [] := by
  by_cases hd : req.dryRun = []
  · exact hd
  · exact absurd (by unfold serverApplyPatch; rw [if_neg hd]) h

theorem serverApplyDelete_persists (st : ServerState) (req : K8sDeleteReq)
    (h : serverApplyDelete st req ≠ st) : req.dryRun = [] := by
  by_cases hd : req.dryRun = []
  · exact hd
  · exact absurd (by unfold serverApplyDelete; rw [if_neg hd]) h

theorem buildObject_name_wins (opts : BuildObjectOpts) (h : opts.name ≠ "") :
    objGetMeta (buildObject opts) "name" = some (Val.vstr opts.name)
  ∧ objGetMeta (buildObject opts) "generateName" = none := by
  have h2 : ¬(opts.generateName ≠ "" ∧ opts.name = "") := fun hc => h hc.2
  by_cases h3 : opts.nspace = "" <;> by_cases h4 : opts.labels = [] <;>
    by_cases h5 : opts.annotations = [] <;>
    simp [buildObject, objGetMeta, lookupVal, setKey, strMapToVal, h, h2, h3, h4, h5]

/-! ## Claim theorems -/

/-- C5: for every pair of well-formed maps (current, supplied), the
`mergeMaps` update merge keeps every key of current that is absent from
supplied unchanged, recursively merges any key present in both whose values
are both maps, and otherwise takes the supplied value; merging `{a:{x:1}}`
into existing `{a:{x:1,y:2}}` yields `{a:{x:1,y:2}}`, and applying the same
supplied map twice yields the same result as applying it once. -/
theorem c5_update_merge_correct (a b : List (String × Val)) (k : String)
    (hb : wfFields b = true) :
    (hasKey b k = false → lookupVal (mergeMaps a b) k = lookupVal a k)
  ∧ (∀ am bm, lookupVal a k = some (Val.vmap am) → lookupVal b k = some (Val.vmap bm) →
      lookupVal (mergeMaps a b) k = some (Val.vmap (mergeMaps am bm)))
  ∧ (∀ v, lookupVal b k = some v →
      (∀ am bm, lookupVal a k = some (Val.vmap am) → v = Val.vmap bm → False) →
      lookupVal (mergeMaps a b) k = some v)
  ∧ mergeMaps [("a", Val.vmap [("x", Val.vint 1), ("y", Val.vint 2)])]
      [("a", Val.vmap [("x", Val.vint 1)])]
      = [("a", Val.vmap [("x", Val.vint 1), ("y", Val.vint 2)])]
  ∧ mergeMaps (mergeMaps a b) b = mergeMaps a b :=
  ⟨lookupVal_mergeMaps_notKey b a k,
   fun am bm => lookupVal_mergeMaps_both b a k am bm hb,
   fun v hv hn => lookupVal_mergeMaps_replace b a k v hb hv hn,
   rfl,
   mergeMaps_idem b hb a⟩

/-- C2 counterexample: with the kind Widget served by both apps/v1 and
batch/v1 and no hint, `resolveKind` does fail with an ambiguity error, but the
error message does not name the candidate apiVersions (neither `apps/v1` nor
`batch/v1` occurs in it) — it only names the kind, refuting the claim that the
error names the candidates. -/
theorem c2_ambiguity_counterexample :
    resolveKind exDiscoAmbiguous "Widget" "" = Except.error (ambiguousMsg "Widget")
  ∧ ambiguousMsg "Widget" =
      "kind \"Widget\" is available in multiple apiVersions; please specify apiVersion"
  ∧ containsStr (ambiguousMsg "Widget") "apps/v1" = false
  ∧ containsStr (ambiguousMsg "Widget") "batch/v1" = false :=
  ⟨rfl, rfl, rfl, rfl⟩

/-- C2 (amended): for every kind whose exact Kind name appears, among
discovery entries whose resource name contains no slash, in exactly one
distinct group/version, `resolveKind` with no hint returns that group/version;
for every kind appearing in two or more distinct group/versions with no hint
it fails with the ambiguity error — which names the kind and instructs the
caller to specify an apiVersion, but does not list the candidate apiVersions —
and never silently picks one. -/
theorem c2_resolve_kind_amended (gr : List APIGroupResources) (kind g v : String) :
    (collectCandidates gr kind "" ≠ [] →
      (∀ c ∈ collectCandidates gr kind "", c.group = g ∧ c.version = v) →
      Except.map (fun rk => (rk.group, rk.version)) (resolveKind gr kind "") =
        Except.ok (g, v))
  ∧ (∀ c1 ∈ collectCandidates gr kind "", ∀ c2 ∈ collectCandidates gr kind "",
      c1.group ++ "/" ++ c1.version ≠ c2.group ++ "/" ++ c2.version →
      resolveKind gr kind "" = Except.error (ambiguousMsg kind)) := by
  constructor
  · intro hne hall
    unfold resolveKind
    cases hc : collectCandidates gr kind "" with
    | nil => exact absurd hc hne
    | cons c t =>
      have hgv : ∀ x ∈ (c :: t).map fun cd => cd.group ++ "/" ++ cd.version,
          x = g ++ "/" ++ v := by
        intro x hx
        obtain ⟨cd, hcd, rfl⟩ := List.mem_map.mp hx
        obtain ⟨h1, h2⟩ := hall cd (hc ▸ hcd)
        rw [h1, h2]
      have hlen : ¬1 < ((c :: t).map fun cd => cd.group ++ "/" ++ cd.version).dedup.length := by
        intro hlt
        obtain ⟨x, hx, y, hy, hxy⟩ := two_distinct_of_one_lt_dedup _ hlt
        exact hxy ((hgv x hx).trans (hgv y hy).symm)
      simp only [hc]
      rw [if_neg fun hcontra => hlen hcontra.2]
      have hcg := (hall c (hc ▸ List.mem_cons_self c t)).1
      have hcv := (hall c (hc ▸ List.mem_cons_self c t)).2
      simp [Except.map, hcg, hcv]
  · intro c1 h1 c2 h2 hne
    unfold resolveKind
    cases hc : collectCandidates gr kind "" with
    | nil => rw [hc] at h1; simp at h1
    | cons c t =>
      have hlt : 1 < ((c :: t).map fun cd => cd.group ++ "/" ++ cd.version).dedup.length := by
        apply one_lt_dedup_of_two_distinct _ (c1.group ++ "/" ++ c1.version)
          (c2.group ++ "/" ++ c2.version)
        · exact List.mem_map.mpr ⟨c1, hc ▸ h1, rfl⟩
        · exact List.mem_map.mpr ⟨c2, hc ▸ h2, rfl⟩
        · exact hne
      simp only [hc]
      rw [if_pos ⟨by trivial, hlt⟩]

/-- Witness for C2 (amended): the unique-group/version half at a discovery
where Widget lives only in apps/v1, and the ambiguity half at the two-version
discovery. -/
theorem c2_resolve_kind_amended_witness :
    Except.map (fun rk => (rk.group, rk.version)) (resolveKind exDiscoUnique "Widget" "") =
      Except.ok ("apps", "v1")
  ∧ resolveKind exDiscoAmbiguous "Widget" "" = Except.error (ambiguousMsg "Widget") := by
  constructor
  · exact (c2_resolve_kind_amended exDiscoUnique "Widget" "apps" "v1").1
      (by decide) (by decide)
  · exact (c2_resolve_kind_amended exDiscoAmbiguous "Widget" "" "").2
      { group := "apps", version := "v1", resource := "widgets", kind := "Widget",
        namespaced := true } (by decide)
      { group := "batch", version := "v1", resource := "widgets", kind := "Widget",
        namespaced := true } (by decide) (by decide)

/-- C3: the two update front ends do not perform the same operation.  With
the live object `default/w1` carrying spec `{a:1, b:2}` and the identical
request spec `{a:2}`, the stdio handler fetches the current object and patches
the merged spec `{a:2, b:2}`, while the HTTP front end (Service.UpdateResource
via K8sClient.Apply) patches a body whose spec is only `{a:2}`, without any
fetch; and when the object is absent the stdio handler fails with a not-found
error while the service path still issues a patch (server-side apply would
create). -/
theorem c3_update_front_ends_diverge :
    Except.map (fun r => objGetMap r.body "spec") (stdioUpdateResource exEnv exK exUpdateArgs)
      = Except.ok (some [("a", Val.vint 2), ("b", Val.vint 2)])
  ∧ Except.map (fun r => objGetMap r.body "spec")
      (serviceUpdateResource exDiscoUnique exK exUpdateReq)
      = Except.ok (some [("a", Val.vint 2)])
  ∧ stdioUpdateResource exEnvEmpty exK exUpdateArgs =
      Except.error (Reply.err JSONRPCInternalError
        "resource Widget/w1 not found in namespace default")
  ∧ Except.map (fun r => (r.name, r.fieldManager))
      (serviceUpdateResource exEnvEmpty.disco exK exUpdateReq)
      = Except.ok ("w1", "datumctl-mcp") :=
  ⟨rfl, rfl, rfl, rfl⟩

/-- C4: when `validate_yaml` fails on a document, `K8sClient.ValidateYAML`
returns `(false, "", err)` with the server error only in the error value, and
`Service.ValidateYAML` discards that error into the blank identifier — the
result surfaced to the caller carries an empty output instead of the server's
structured message. -/
theorem c4_validate_error_swallowed :
    validateYAMLGo
      [{ blank := false, stage := Stage.serverReject "spec.replicas: Invalid value: -1" }] =
      { valid := false, output := "",
        err := some "spec.replicas: Invalid value: -1", creates := 1 }
  ∧ serviceValidateYAML
      [{ blank := false, stage := Stage.serverReject "spec.replicas: Invalid value: -1" }] =
      { valid := false, output := "" } :=
  ⟨rfl, rfl⟩

/-- C6: for every split manifest whose i-th non-blank document is the first
to fail (at any stage: decode, missing apiVersion/kind, kind resolution, or
server rejection of the dry-run create), `ValidateYAML` reports exactly that
one failure, issues dry-run creates only for the non-blank documents up to
and including the failing one (none for any later document), and when every
non-blank document succeeds it reports the count of validated documents. -/
theorem c6_validate_fail_fast (docs : List MDoc) :
    ((∀ d ∈ docs.filter (fun d => !d.blank), d.stage = Stage.ok) →
      validateYAMLGo docs =
        { valid := true,
          output := validatedMsg (docs.filter (fun d => !d.blank)).length,
          err := none, creates := (docs.filter (fun d => !d.blank)).length })
  ∧ (∀ pre bad post, docs.filter (fun d => !d.blank) = pre ++ bad :: post →
      (∀ d ∈ pre, d.stage = Stage.ok) → bad.stage ≠ Stage.ok →
      validateYAMLGo docs =
        { valid := false, output := "", err := stageError bad.stage,
          creates := pre.length + (if stageIssuesCreate bad.stage then 1 else 0) }) := by
  constructor
  · intro hok
    have h := validateLoop_all_ok docs 0 0 hok
    simpa [validateYAMLGo] using h
  · intro pre bad post hsplit hpre hbad
    have h := validateLoop_fail docs pre bad post 0 0 hsplit hpre hbad
    simpa [validateYAMLGo] using h

/-- Witness for C6: a three-document manifest (with a blank document in
between) whose second non-blank document is rejected by the server: the run
reports that one failure, issues two dry-run creates (none for the later
document), and an all-valid manifest reports its count. -/
theorem c6_validate_fail_fast_witness :
    validateYAMLGo
      [{ blank := false, stage := Stage.ok }, { blank := true, stage := Stage.ok },
       { blank := false, stage := Stage.serverReject "boom" },
       { blank := false, stage := Stage.ok }] =
      { valid := false, output := "", err := some "boom", creates := 2 }
  ∧ validateYAMLGo
      [{ blank := false, stage := Stage.ok }, { blank := false, stage := Stage.ok }] =
      { valid := true, output := validatedMsg 2, err := none, creates := 2 } := by
  constructor
  · exact Eq.trans
      ((c6_validate_fail_fast
        [{ blank := false, stage := Stage.ok }, { blank := true, stage := Stage.ok },
         { blank := false, stage := Stage.serverReject "boom" },
         { blank := false, stage := Stage.ok }]).2
        [{ blank := false, stage := Stage.ok }]
        { blank := false, stage := Stage.serverReject "boom" }
        [{ blank := false, stage := Stage.ok }]
        (by decide) (by decide) (by decide))
      (by decide)
  · exact Eq.trans
      ((c6_validate_fail_fast
        [{ blank := false, stage := Stage.ok }, { blank := false, stage := Stage.ok }]).1
        (by decide))
      (by decide)

/-- C7: for every change_context call that supplies exactly one of project or
organization, if building the new client fails or the readiness check against
the new target fails, the active session (transport and default namespace) is
exactly what it was before the call and the failure is surfaced; more
generally, every error outcome of either front end's handler leaves the
session unchanged. -/
theorem c7_context_switch_atomic (env : CtxEnv) (k : K8sClientModel)
    (r : ChangeContextReq) (args : List (String × Val)) :
    (∀ e, (serviceChangeContext env k r).2 = Except.error e →
      serviceChangeContext env k r = (k, Except.error e))
  ∧ ((r.project = "") ≠ (r.org = "") →
      (∀ e, (if r.project ≠ "" then
            env.newForProject r.project (firstNonEmpty r.nspace k.nspace)
          else env.newForOrg r.org (firstNonEmpty r.nspace k.nspace)) = Except.error e →
        serviceChangeContext env k r = (k, Except.error e))
      ∧ (∀ nc e, (if r.project ≠ "" then
            env.newForProject r.project (firstNonEmpty r.nspace k.nspace)
          else env.newForOrg r.org (firstNonEmpty r.nspace k.nspace)) = Except.ok nc →
        env.readyCheck nc = Except.error e →
        serviceChangeContext env k r = (k, Except.error e)))
  ∧ (∀ c m, (stdioChangeContext env k args).2 = Reply.err c m →
      stdioChangeContext env k args = (k, Reply.err c m)) := by
  refine ⟨?_, ?_, ?_⟩
  · intro e he
    unfold serviceChangeContext at he ⊢
    by_cases h1 : r.project = "" ∧ r.org = "" ∧ r.nspace ≠ ""
    · rw [if_pos h1] at he ⊢
      exact absurd he (by simp)
    · rw [if_neg h1] at he ⊢
      by_cases h2 : (r.project = "") = (r.org = "")
      · rw [if_pos h2] at he ⊢
        simp only [Except.error.injEq] at he
        rw [he]
      · rw [if_neg h2] at he ⊢
        cases hnext : (if r.project ≠ "" then
            env.newForProject r.project (firstNonEmpty r.nspace k.nspace)
          else env.newForOrg r.org (firstNonEmpty r.nspace k.nspace)) with
        | error e2 =>
          rw [hnext] at he
          have he2 : e2 = e := by simpa using he
          rw [he2]
        | ok nc =>
          rw [hnext] at he
          cases hrc : env.readyCheck nc with
          | error e2 =>
            have he2 : e2 = e := by simpa [hrc] using he
            simp only [hrc]
            rw [he2]
          | ok u =>
            simp [hrc] at he
  · intro hxor
    have h1 : ¬(r.project = "" ∧ r.org = "" ∧ r.nspace ≠ "") := by
      intro h
      exact hxor (h.1.symm ▸ h.2.1.symm ▸ rfl)
    have h2 : ¬((r.project = "") = (r.org = "")) := hxor
    constructor
    · intro e hbuild
      unfold serviceChangeContext
      rw [if_neg h1, if_neg h2, hbuild]
    · intro nc e hbuild hrc
      unfold serviceChangeContext
      rw [if_neg h1, if_neg h2, hbuild]
      simp only [hrc]
  · intro c m he
    unfold stdioChangeContext at he ⊢
    by_cases h1 : getStringDefault args "project" = "" ∧ getStringDefault args "org" = ""
        ∧ getStringDefault args "namespace" ≠ ""
    · rw [if_pos h1] at he ⊢
      exact absurd he (by simp)
    · rw [if_neg h1] at he ⊢
      by_cases h2 : (getStringDefault args "project" = "") = (getStringDefault args "org" = "")
      · rw [if_pos h2] at he ⊢
        simp only [Reply.err.injEq] at he
        rw [he.1, he.2]
      · rw [if_neg h2] at he ⊢
        cases hnext : (if getStringDefault args "project" ≠ "" then
            env.newForProject (getStringDefault args "project")
              (firstNonEmpty (getStringDefault args "namespace") k.nspace)
          else env.newForOrg (getStringDefault args "org")
              (firstNonEmpty (getStringDefault args "namespace") k.nspace)) with
        | error e2 =>
          rw [hnext] at he
          have he2 : JSONRPCInternalError = c ∧ e2 = m := by simpa using he
          rw [he2.1, he2.2]
        | ok nc =>
          rw [hnext] at he
          cases hrc : env.readyCheck nc with
          | error e2 =>
            have he2 : JSONRPCInternalError = c ∧ e2 = m := by simpa [hrc] using he
            simp only [hrc]
            rw [he2.1, he2.2]
          | ok u =>
            simp [hrc] at he

/-- Witness for C7: a readiness check that fails leaves the concrete session
untouched and surfaces the failure, on both front ends. -/
theorem c7_context_switch_atomic_witness :
    serviceChangeContext exCtxEnvDown exK { project := "p1" } =
      (exK, Except.error "kubernetes API unreachable: dial tcp")
  ∧ stdioChangeContext exCtxEnvDown exK [("org", Val.vstr "o1")] =
      (exK, Reply.err JSONRPCInternalError "kubernetes API unreachable: dial tcp") := by
  constructor
  · exact ((c7_context_switch_atomic exCtxEnvDown exK { project := "p1" } []).2.1
      (by decide)).2 { transport := 99, nspace := "default" }
      "kubernetes API unreachable: dial tcp" rfl rfl
  · exact (c7_context_switch_atomic exCtxEnvDown exK { project := "p1" }
      [("org", Val.vstr "o1")]).2.2 JSONRPCInternalError
      "kubernetes API unreachable: dial tcp" rfl

/-- C8: change_context with both project and organization set, or with
neither set and no namespace, fails with InvalidParams and changes nothing;
with only a namespace supplied it succeeds, changes only the session's
default namespace, and leaves the transport untouched — on the stdio handler
and on the service layer alike. -/
theorem c8_change_context_param_rules (env : CtxEnv) (k : K8sClientModel)
    (r : ChangeContextReq) (args : List (String × Val)) :
    (getStringDefault args "project" ≠ "" → getStringDefault args "org" ≠ "" →
      stdioChangeContext env k args =
        (k, Reply.err JSONRPCInvalidParams "exactly one of project or org is required"))
  ∧ (getStringDefault args "project" = "" → getStringDefault args "org" = "" →
      getStringDefault args "namespace" = "" →
      stdioChangeContext env k args =
        (k, Reply.err JSONRPCInvalidParams "exactly one of project or org is required"))
  ∧ (getStringDefault args "project" = "" → getStringDefault args "org" = "" →
      getStringDefault args "namespace" ≠ "" →
      stdioChangeContext env k args =
        ({ transport := k.transport, nspace := getStringDefault args "namespace" },
         Reply.ok [("ok", Val.vbool true),
                   ("namespace", Val.vstr (getStringDefault args "namespace"))]))
  ∧ (r.project ≠ "" → r.org ≠ "" →
      serviceChangeContext env k r =
        (k, Except.error "exactly one of project or org is required"))
  ∧ (r.project = "" → r.org = "" → r.nspace = "" →
      serviceChangeContext env k r =
        (k, Except.error "exactly one of project or org is required"))
  ∧ (r.project = "" → r.org = "" → r.nspace ≠ "" →
      serviceChangeContext env k r =
        ({ transport := k.transport, nspace := r.nspace },
         Except.ok { ok := true, nspace := r.nspace })) := by
  refine ⟨?_, ?_, ?_, ?_, ?_, ?_⟩
  · intro hp ho
    unfold stdioChangeContext
    rw [if_neg (by intro h; exact hp h.1), if_pos (by simp [hp, ho])]
  · intro hp ho hn
    unfold stdioChangeContext
    rw [if_neg (by intro h; exact h.2.2 hn), if_pos (by rw [hp, ho])]
  · intro hp ho hn
    unfold stdioChangeContext
    rw [if_pos ⟨hp, ho, hn⟩]
  · intro hp ho
    unfold serviceChangeContext
    rw [if_neg (by intro h; exact hp h.1), if_pos (by simp [hp, ho])]
  · intro hp ho hn
    unfold serviceChangeContext
    rw [if_neg (by intro h; exact h.2.2 hn), if_pos (by rw [hp, ho])]
  · intro hp ho hn
    unfold serviceChangeContext
    rw [if_pos ⟨hp, ho, hn⟩]

/-- Witness for C8: both-set, neither-set and namespace-only calls at
concrete arguments. -/
theorem c8_change_context_param_rules_witness :
    stdioChangeContext exCtxEnvDown exK
      [("project", Val.vstr "p1"), ("org", Val.vstr "o1")] =
      (exK, Reply.err JSONRPCInvalidParams "exactly one of project or org is required")
  ∧ serviceChangeContext exCtxEnvDown exK {} =
      (exK, Except.error "exactly one of project or org is required")
  ∧ serviceChangeContext exCtxEnvDown exK { nspace := "team-a" } =
      ({ transport := exK.transport, nspace := "team-a" },
       Except.ok { ok := true, nspace := "team-a" }) := by
  refine ⟨?_, ?_, ?_⟩
  · exact (c8_change_context_param_rules exCtxEnvDown exK {}
      [("project", Val.vstr "p1"), ("org", Val.vstr "o1")]).1 (by decide) (by decide)
  · exact (c8_change_context_param_rules exCtxEnvDown exK {} []).2.2.2.2.1
      rfl rfl rfl
  · exact (c8_change_context_param_rules exCtxEnvDown exK { nspace := "team-a" }
      []).2.2.2.2.2 rfl rfl (by decide)

/-- C9: for every tools/call request on the stdio front end, the readiness
check against the active session happens before any tool handler runs:
whenever the check fails (and the request names a tool), an InternalError
response with code -32603 carrying the check's message is returned and no
tool handler is dispatched; conversely a tool handler only ever runs after
the check succeeded. -/
theorem c9_preflight_gate (runTool : String → List (String × Val) → Reply)
    (params : List (String × Val)) (pf : Except String Unit) :
    (∀ e, pf = Except.error e → (getString params "name").1 ≠ "" →
      handleToolsCall pf runTool params = (Reply.err JSONRPCInternalError e, []))
  ∧ ((handleToolsCall pf runTool params).2 ≠ [] → pf = Except.ok ()) := by
  constructor
  · intro e hpf hname
    unfold handleToolsCall
    rw [if_neg hname, hpf]
  · intro htrace
    unfold handleToolsCall at htrace
    by_cases hname : (getString params "name").1 = ""
    · rw [if_pos hname] at htrace
      exact absurd rfl htrace
    · rw [if_neg hname] at htrace
      cases hpf : pf with
      | error e => rw [hpf] at htrace; exact absurd rfl htrace
      | ok u => cases u; rfl

/-- Witness for C9: a failing readiness check at a concrete request yields
the InternalError reply and an empty dispatch trace. -/
theorem c9_preflight_gate_witness :
    handleToolsCall (Except.error "kubernetes API unreachable: dial tcp")
      (fun _ _ => Reply.ok []) [("name", Val.vstr "datum_list_crds")] =
      (Reply.err JSONRPCInternalError "kubernetes API unreachable: dial tcp", []) :=
  (c9_preflight_gate (fun _ _ => Reply.ok []) [("name", Val.vstr "datum_list_crds")]
    (Except.error "kubernetes API unreachable: dial tcp")).1
    "kubernetes API unreachable: dial tcp" rfl (by decide)

/-- C1: for every create_resource, update_resource and delete_resource call
in which the dryRun argument is absent — on the stdio front end (no `dryRun`
key in the arguments) and on the service layer serving HTTP (`DryRun` pointer
nil) — the request the engine sends to the API server carries the server-side
dry-run flag `["All"]`; and the modelled server state is mutated only when
the caller explicitly passed `dryRun = false`. -/
theorem c1_dry_run_default (disco : List APIGroupResources) (k : K8sClientModel)
    (args : List (String × Val)) (rc : CreateResourceReq) (ru : UpdateResourceReq)
    (rd : DeleteResourceReq) (env : ServerEnv) (st : ServerState) :
    (lookupVal args "dryRun" = none → getBoolDefault args "dryRun" true = true)
  ∧ serviceDry none = true
  ∧ (rc.dryRun = none → ∀ req, serviceCreateResource disco k rc = Except.ok req →
      req.dryRun = ["All"])
  ∧ (ru.dryRun = none → ∀ req, serviceUpdateResource disco k ru = Except.ok req →
      req.dryRun = ["All"])
  ∧ (rd.dryRun = none → ∀ req, serviceDeleteResource disco k rd = Except.ok req →
      req.dryRun = ["All"])
  ∧ (lookupVal args "dryRun" = none →
      ∀ req, stdioCreateResource disco k args = Except.ok req → req.dryRun = ["All"])
  ∧ (lookupVal args "dryRun" = none →
      ∀ req, stdioUpdateResource env k args = Except.ok req → req.dryRun = ["All"])
  ∧ (lookupVal args "dryRun" = none →
      ∀ req, stdioDeleteResource disco k args = Except.ok req → req.dryRun = ["All"])
  ∧ (∀ req, serviceCreateResource disco k rc = Except.ok req →
      serverApplyCreate st req ≠ st → rc.dryRun = some false)
  ∧ (∀ req, serviceUpdateResource disco k ru = Except.ok req →
      serverApplyPatch st req ≠ st → ru.dryRun = some false)
  ∧ (∀ req, serviceDeleteResource disco k rd = Except.ok req →
      serverApplyDelete st req ≠ st → rd.dryRun = some false)
  ∧ (∀ req, stdioCreateResource disco k args = Except.ok req →
      serverApplyCreate st req ≠ st → lookupVal args "dryRun" = some (Val.vbool false))
  ∧ (∀ req, stdioUpdateResource env k args = Except.ok req →
      serverApplyPatch st req ≠ st → lookupVal args "dryRun" = some (Val.vbool false))
  ∧ (∀ req, stdioDeleteResource disco k args = Except.ok req →
      serverApplyDelete st req ≠ st → lookupVal args "dryRun" = some (Val.vbool false)) := by
  refine ⟨fun hl => getBoolDefault_none args "dryRun" true hl, rfl,
    ?_, ?_, ?_, ?_, ?_, ?_, ?_, ?_, ?_, ?_, ?_, ?_⟩
  · intro hnone req h
    rw [serviceCreateResource_dryRun disco k rc req h, hnone]
    rfl
  · intro hnone req h
    rw [serviceUpdateResource_dryRun disco k ru req h, hnone]
    rfl
  · intro hnone req h
    rw [serviceDeleteResource_dryRun disco k rd req h, hnone]
    rfl
  · intro hnone req h
    rw [stdioCreateResource_dryRun disco k args req h, getBoolDefault_none args _ _ hnone]
    rfl
  · intro hnone req h
    rw [stdioUpdateResource_dryRun env k args req h, getBoolDefault_none args _ _ hnone]
    rfl
  · intro hnone req h
    rw [stdioDeleteResource_dryRun disco k args req h, getBoolDefault_none args _ _ hnone]
    rfl
  · intro req h hmut
    have hd := serverApplyCreate_persists st req hmut
    rw [serviceCreateResource_dryRun disco k rc req h] at hd
    exact serviceDry_eq_false _ (ternary_dryRun_eq_nil _ hd)
  · intro req h hmut
    have hd := serverApplyPatch_persists st req hmut
    rw [serviceUpdateResource_dryRun disco k ru req h] at hd
    exact serviceDry_eq_false _ (ternary_dryRun_eq_nil _ hd)
  · intro req h hmut
    have hd := serverApplyDelete_persists st req hmut
    rw [serviceDeleteResource_dryRun disco k rd req h] at hd
    exact serviceDry_eq_false _ (ternary_dryRun_eq_nil _ hd)
  · intro req h hmut
    have hd := serverApplyCreate_persists st req hmut
    rw [stdioCreateResource_dryRun disco k args req h] at hd
    exact getBoolDefault_eq_false args _ (ternary_dryRun_eq_nil _ hd)
  · intro req h hmut
    have hd := serverApplyPatch_persists st req hmut
    rw [stdioUpdateResource_dryRun env k args req h] at hd
    exact getBoolDefault_eq_false args _ (ternary_dryRun_eq_nil _ hd)
  · intro req h hmut
    have hd := serverApplyDelete_persists st req hmut
    rw [stdioDeleteResource_dryRun disco k args req h] at hd
    exact getBoolDefault_eq_false args _ (ternary_dryRun_eq_nil _ hd)

/-- Witness for C1: the concrete update call without a dryRun argument
produces a patch request carrying the dry-run flag, on both front ends. -/
theorem c1_dry_run_default_witness :
    getBoolDefault exUpdateArgs "dryRun" true = true
  ∧ (∀ req, stdioUpdateResource exEnv exK exUpdateArgs = Except.ok req →
      req.dryRun = ["All"])
  ∧ (∀ req, serviceUpdateResource exDiscoUnique exK exUpdateReq = Except.ok req →
      req.dryRun = ["All"]) := by
  have h := c1_dry_run_default exDiscoUnique exK exUpdateArgs {} exUpdateReq {} exEnv
    { objs := [] }
  exact ⟨h.1 rfl, h.2.2.2.2.2.2.1 rfl, h.2.2.2.1 rfl⟩

/-- C10: for every create_resource call that supplies both name and
generateName, the object the engine sends to the API server has
metadata.name set to the supplied name and carries no metadata.generateName
field; generateName is used only when the name is empty. -/
theorem c10_name_precedence (disco : List APIGroupResources) (defaultNs : String)
    (opt : CreateOptions) (req : K8sCreateReq) (hname : opt.name ≠ "")
    (h : K8sCreate disco defaultNs opt = Except.ok req) :
    objGetMeta req.obj "name" = some (Val.vstr opt.name)
  ∧ objGetMeta req.obj "generateName" = none := by
  unfold K8sCreate at h
  cases hres : resolveKind disco opt.kind opt.apiVersion with
  | error e => rw [hres] at h; exact Except.noConfusion h
  | ok rk =>
    rw [hres] at h
    simp only [Except.ok.injEq] at h
    subst h
    exact buildObject_name_wins _ hname

/-- Witness for C10: the concrete create with name `w1` and generateName
`w-` sends an object named `w1` with no generateName field. -/
theorem c10_name_precedence_witness :
    K8sCreate exDiscoUnique "default" exCreateOpt = Except.ok exCreateReq
  ∧ objGetMeta exCreateReq.obj "name" = some (Val.vstr "w1")
  ∧ objGetMeta exCreateReq.obj "generateName" = none := by
  have h := c10_name_precedence exDiscoUnique "default" exCreateOpt exCreateReq
    (by decide) rfl
  exact ⟨rfl, h.1, h.2⟩

/-- Witness for C5 at concrete maps. -/
theorem c5_update_merge_correct_witness :
    wfFields [("a", Val.vmap [("x", Val.vint 1)])] = true
  ∧ lookupVal (mergeMaps [("z", Val.vint 9)] [("a", Val.vmap [("x", Val.vint 1)])]) "z"
      = some (Val.vint 9) :=
  ⟨rfl,
   Eq.trans
     ((c5_update_merge_correct [("z", Val.vint 9)] [("a", Val.vmap [("x", Val.vint 1)])]
       "z" rfl).1 rfl)
     rfl⟩

end Datumctl
